import Mathlib

/-!
# sbc-pay: invoice/payment lifecycle and reconciliation, verified

A shallow embedding of the invoice/payment lifecycle state machine, the
partial-cancellation saga, the reconciliation matcher, the routing-slip
apply/unapply pool, the connector retry policy, the payment-method schema
enums and the BCOL fee-code mapping of the sbc-pay repository, with
theorems settling the specification's claims about them.

The repository's Python services are not part of the staged sources (only
schemas, SQL, CFS/BCOL integration notes and configuration are), so the
state machine and the money-moving operations are modelled from the
specification's own words and from the integration notes, as flagged on
each definition.
-/

namespace SbcPay

/-- Invoice statuses, from the spec's data model: CREATED, APPROVED, PAID,
CANCELLED, CREDITED, REFUNDED, REFUND_REQUESTED, OVERDUE. -/
inductive InvoiceStatus where
  | created
  | approved
  | paid
  | cancelled
  | credited
  | refunded
  | refundRequested
  | overdue
  deriving DecidableEq, Repr

/-- Modelled from the spec: terminal states are CANCELLED, REFUNDED,
CREDITED. -/
def InvoiceStatus.isTerminal : InvoiceStatus → Bool
  | .cancelled => true
  | .refunded => true
  | .credited => true
  | _ => false

/-- Events driving the invoice state machine, one per edge family of the
spec's transition diagram, plus the explicit void. -/
inductive InvoiceEvent where
  | approve
  | pay
  | cancel
  | credit
  | refund
  | markOverdue
  | void
  deriving DecidableEq, Repr

/-- Error taxonomy of the spec's section 7 (the part the state machine
raises). -/
inductive PayError where
  | invalidTransition
  | connectorError
  deriving DecidableEq, Repr

/-- An invoice as the state machine sees it: status and total (money in
cents). -/
structure Invoice where
  status : InvoiceStatus
  total : Int
  deriving DecidableEq, Repr

/-- Modelled from the spec: the allowed edges of the invoice state machine.
CREATED → APPROVED; APPROVED → PAID, CANCELLED; PAID → CREDITED, REFUNDED,
OVERDUE; any non-terminal state → CANCELLED on explicit void. Returns the
target status when the edge exists. -/
def allowedEdge : InvoiceStatus → InvoiceEvent → Option InvoiceStatus
  | .created, .approve => some .approved
  | .approved, .pay => some .paid
  | .approved, .cancel => some .cancelled
  | .paid, .credit => some .credited
  | .paid, .refund => some .refunded
  | .paid, .markOverdue => some .overdue
  | s, .void => if s.isTerminal then none else some .cancelled
  | _, _ => none

/-- Modelled from the spec: `transition(invoice, event)` validates that the
event is legal for the current status and applies it, rejecting with an
InvalidTransition error otherwise. -/
def transition (inv : Invoice) (e : InvoiceEvent) : Except PayError Invoice :=
  match allowedEdge inv.status e with
  | some s => .ok { inv with status := s }
  | none => .error .invalidTransition

/-- Whether an Except result is a success. -/
def isOk {ε α : Type} : Except ε α → Bool
  | .ok _ => true
  | .error _ => false

/-- C1: transition succeeds exactly on the listed edges — CREATED→APPROVED,
APPROVED→{PAID, CANCELLED}, PAID→{CREDITED, REFUNDED, OVERDUE}, and any
non-terminal status →CANCELLED on void — rejects everything else with
InvalidTransition, and never leaves a terminal status. -/
theorem transition_exactly_listed_edges (inv : Invoice) (e : InvoiceEvent) :
    (isOk (transition inv e) = true ↔
      ((inv.status = .created ∧ e = .approve) ∨
       (inv.status = .approved ∧ (e = .pay ∨ e = .cancel)) ∨
       (inv.status = .paid ∧ (e = .credit ∨ e = .refund ∨ e = .markOverdue)) ∨
       (e = .void ∧ inv.status.isTerminal = false))) ∧
    (isOk (transition inv e) = false →
      transition inv e = .error .invalidTransition) ∧
    (inv.status.isTerminal = true → transition inv e = .error .invalidTransition) := by
  obtain ⟨s, t⟩ := inv
  cases s <;> cases e <;>
    simp [transition, allowedEdge, isOk, InvoiceStatus.isTerminal]

/-! ## Partial cancellation (CFS integration notes: cancel_transaction_partial)

The CFS notes list three calls for a partial cancellation: `/rcpts/unapply`
(unapply the receipt on the invoice), `/invs/adjs` (adjust invoice to
partial) and `/rcpts/apply` (apply the receipt to invoice). The spec
requires the three sub-steps to run as a single logical unit, with the
pre-transition state restored on any failure. -/

/-- The slice of CFS-visible state a partial cancellation touches: the
invoice's status and total, and the amount of the funding receipt applied
to it. -/
structure CfsState where
  invStatus : InvoiceStatus
  invTotal : Int
  receiptAmount : Int
  appliedAmount : Int
  deriving DecidableEq, Repr

/-- Sub-step 1, `/rcpts/unapply`: unapply the receipt on the invoice. -/
def unapplyReceipt (s : CfsState) : CfsState :=
  { s with appliedAmount := 0 }

/-- Sub-step 2, `/invs/adjs`: adjust the invoice total to the partial
amount. -/
def adjustInvoice (newTotal : Int) (s : CfsState) : CfsState :=
  { s with invTotal := newTotal }

/-- Sub-step 3, `/rcpts/apply`: apply the receipt to the invoice for the
given amount. -/
def applyReceipt (amt : Int) (s : CfsState) : CfsState :=
  { s with appliedAmount := s.appliedAmount + amt }

/-- Which of the three outbound CFS calls of a partial cancellation
succeed, as reported by the connector. -/
structure SagaOutcome where
  unapplyOk : Bool
  adjustOk : Bool
  reapplyOk : Bool
  deriving DecidableEq, Repr

/-- Modelled from the spec: partial cancellation runs unapply, adjust
downward, re-apply as one logical unit; if any sub-step's connector call
fails the whole operation fails and no state change is committed. -/
def cancelTransactionPartial (o : SagaOutcome) (newTotal : Int) (s : CfsState) :
    Except PayError CfsState :=
  if !o.unapplyOk then .error .connectorError else
  let s1 := unapplyReceipt s
  if !o.adjustOk then .error .connectorError else
  let s2 := adjustInvoice newTotal s1
  if !o.reapplyOk then .error .connectorError else
  .ok (applyReceipt newTotal s2)

/-- The state the ledger holds after the saga: the new state on success,
the untouched pre-transition state on failure (compensating rollback). -/
def commitState (r : Except PayError CfsState) (pre : CfsState) : CfsState :=
  match r with
  | .ok s => s
  | .error _ => pre

/-- C2: partial cancellation is the three sub-steps unapply, adjust,
re-apply composed in that order when every sub-step succeeds, and on any
sub-step failure the committed state — status, total and receipt
application alike — equals the pre-transition state. -/
theorem cancelTransactionPartial_atomic (o : SagaOutcome) (newTotal : Int)
    (s : CfsState) :
    (o.unapplyOk = true ∧ o.adjustOk = true ∧ o.reapplyOk = true →
      cancelTransactionPartial o newTotal s =
        .ok (applyReceipt newTotal (adjustInvoice newTotal (unapplyReceipt s)))) ∧
    (¬(o.unapplyOk = true ∧ o.adjustOk = true ∧ o.reapplyOk = true) →
      isOk (cancelTransactionPartial o newTotal s) = false ∧
      (commitState (cancelTransactionPartial o newTotal s) s).invStatus = s.invStatus ∧
      (commitState (cancelTransactionPartial o newTotal s) s).invTotal = s.invTotal ∧
      (commitState (cancelTransactionPartial o newTotal s) s).appliedAmount =
        s.appliedAmount) := by
  obtain ⟨u, a, r⟩ := o
  cases u <;> cases a <;> cases r <;>
    simp [cancelTransactionPartial, commitState, isOk]

/-! ## Reconciliation matcher: idempotent feedback processing -/

/-- Association-list lookup by external reference. -/
def lookupRef {β : Type} : List (String × β) → String → Option β
  | [], _ => none
  | (k, v) :: rest, key => if k = key then some v else lookupRef rest key

/-- A settlement/feedback record: an external system's statement of fact,
keyed by a unique external id, correlated to an invoice by external
reference, carrying the money effect to apply. -/
structure FeedbackRecord where
  extId : String
  invoiceRef : String
  amountDelta : Int
  deriving DecidableEq, Repr

/-- The matcher's state: the persisted set of already-processed external
ids and every invoice's total, keyed by external reference. -/
structure ReconState where
  processedIds : List String
  invoiceTotals : List (String × Int)
  deriving DecidableEq, Repr

/-- Apply a money delta to the one invoice with the given reference. -/
def updateTotal (ref : String) (delta : Int) :
    List (String × Int) → List (String × Int)
  | [] => []
  | (k, v) :: rest =>
      if k = ref then (k, v + delta) :: rest
      else (k, v) :: updateTotal ref delta rest

/-- Modelled from the spec: processing a feedback record first dedupes on
the persisted record of previously processed external ids; a record whose
external id was already processed is a no-op, otherwise its money effect
is applied and its external id persisted. -/
def processFeedback (r : FeedbackRecord) (s : ReconState) : ReconState :=
  if r.extId ∈ s.processedIds then s
  else
    { processedIds := r.extId :: s.processedIds
      invoiceTotals := updateTotal r.invoiceRef r.amountDelta s.invoiceTotals }

/-- The recorded total of the invoice with the given reference. -/
def totalOf (s : ReconState) (ref : String) : Option Int :=
  lookupRef s.invoiceTotals ref

/-- C3: replaying a feedback record with the same external id is a no-op —
the second application leaves the whole matcher state, in particular every
invoice total, exactly as the first left it, so funds are never applied
twice. -/
theorem processFeedback_idempotent (r : FeedbackRecord) (s : ReconState) :
    processFeedback r (processFeedback r s) = processFeedback r s ∧
    (∀ ref, totalOf (processFeedback r (processFeedback r s)) ref =
      totalOf (processFeedback r s) ref) := by
  have h : processFeedback r (processFeedback r s) = processFeedback r s := by
    by_cases h : r.extId ∈ s.processedIds <;>
      simp [processFeedback, h]
  exact ⟨h, fun ref => by rw [h]⟩

/-! ## Reconciliation matcher: unmatched records are parked, never dropped -/

/-- A settlement record as the matcher ingests it: external reference and
amount. -/
structure SettlementRecord where
  extRef : String
  amount : Int
  deriving DecidableEq, Repr

/-- The matcher's view of the ledger: invoices and receipts keyed by
external reference, plus the parked records awaiting manual review and the
alerts raised for them. -/
structure MatcherState where
  invoiceRefs : List (String × Invoice)
  receiptRefs : List (String × Int)
  parked : List SettlementRecord
  alerts : List String
  deriving DecidableEq, Repr

/-- The alert recorded for a settlement record that matches nothing. -/
def mismatchAlert (r : SettlementRecord) : String :=
  "ReconciliationMismatch:" ++ r.extRef

/-- Drive the state-machine transition for a matched invoice: the matched
settlement pays it, committing only a legal transition. -/
def settleMatchedInvoice (inv : Invoice) : Invoice :=
  commitInvoice (transition inv .pay) inv
where
  commitInvoice (r : Except PayError Invoice) (pre : Invoice) : Invoice :=
    match r with
    | .ok inv => inv
    | .error _ => pre

/-- Modelled from the spec: for each settlement record, look up the
invoice/receipt by external reference; if an invoice is found, drive the
appropriate state-machine transition; if nothing is found, park the record
for manual review and raise a ReconciliationMismatch alert rather than
dropping it. -/
def processSettlement (r : SettlementRecord) (st : MatcherState) : MatcherState :=
  match lookupRef st.invoiceRefs r.extRef with
  | some inv =>
      { st with invoiceRefs :=
          (r.extRef, settleMatchedInvoice inv) ::
            (st.invoiceRefs.filter (fun p => !(p.1 = r.extRef))) }
  | none =>
      match lookupRef st.receiptRefs r.extRef with
      | some _ => st
      | none =>
          { st with
              parked := r :: st.parked
              alerts := mismatchAlert r :: st.alerts }

/-- C6: a settlement record whose external reference matches no known
invoice and no known receipt is parked for manual review with a
ReconciliationMismatch alert, and no invoice or receipt state changes; it
is never silently discarded. -/
theorem processSettlement_unmatched_parked (r : SettlementRecord)
    (st : MatcherState)
    (hinv : lookupRef st.invoiceRefs r.extRef = none)
    (hrcpt : lookupRef st.receiptRefs r.extRef = none) :
    (processSettlement r st).parked = r :: st.parked ∧
    mismatchAlert r ∈ (processSettlement r st).alerts ∧
    (processSettlement r st).invoiceRefs = st.invoiceRefs ∧
    (processSettlement r st).receiptRefs = st.receiptRefs := by
  simp [processSettlement, hinv, hrcpt]

/-- C6 witness: a record with reference RS999 against an empty ledger is
parked and alerted. -/
theorem processSettlement_unmatched_parked_witness :
    (processSettlement ⟨"RS999", 25⟩ ⟨[], [], [], []⟩).parked =
      [⟨"RS999", 25⟩] ∧
    mismatchAlert ⟨"RS999", 25⟩ ∈ (processSettlement ⟨"RS999", 25⟩ ⟨[], [], [], []⟩).alerts ∧
    (processSettlement ⟨"RS999", 25⟩ ⟨[], [], [], []⟩).invoiceRefs = [] ∧
    (processSettlement ⟨"RS999", 25⟩ ⟨[], [], [], []⟩).receiptRefs = [] :=
  processSettlement_unmatched_parked ⟨"RS999", 25⟩ ⟨[], [], [], []⟩ rfl rfl

/-! ## Receipts applied to an invoice: the PAID coverage invariant -/

/-- A receipt held against an invoice: its face amount and the part of it
currently applied to the invoice. The unapplied part is its remaining
balance. -/
structure AppliedReceipt where
  amount : Int
  applied : Int
  deriving DecidableEq, Repr

/-- The remaining (unapplied) balance of a receipt. -/
def remainingBalance (r : AppliedReceipt) : Int :=
  r.amount - r.applied

/-- An invoice together with the receipts applied to it. -/
structure LedgerInvoice where
  status : InvoiceStatus
  total : Int
  receipts : List AppliedReceipt
  deriving DecidableEq, Repr

/-- The sum of the receipt amounts applied to the invoice. -/
def appliedSum (inv : LedgerInvoice) : Int :=
  (inv.receipts.map (fun r => r.applied)).sum

/-- A freshly created invoice: CREATED, no receipts applied. -/
def newInvoice (t : Int) : LedgerInvoice :=
  ⟨.created, t, []⟩

/-- Approve a created invoice. -/
def approveOp (inv : LedgerInvoice) : LedgerInvoice :=
  { inv with status := .approved }

/-- Modelled from the spec: an invoice moves to PAID when a receipt is
applied; the receipt (of the given face amount) is applied for exactly the
invoice total. -/
def payOp (receiptAmount : Int) (inv : LedgerInvoice) : LedgerInvoice :=
  { inv with status := .paid, receipts := [⟨receiptAmount, inv.total⟩] }

/-- Modelled from the spec: partial cancellation of a paid invoice —
unapply the existing receipts, adjust the invoice total downward to the
new total, re-apply the first receipt for the new total. -/
def partialCancelOp (newTotal : Int) (inv : LedgerInvoice) : LedgerInvoice :=
  match inv.receipts with
  | [] => inv
  | r :: rs =>
      { status := .paid
        total := newTotal
        receipts := ⟨r.amount, newTotal⟩ :: rs.map (fun x => ⟨x.amount, 0⟩) }

/-- Modelled from the spec: full cancellation — unapply the receipts,
adjust the invoice total to zero, mark it CANCELLED. -/
def fullCancelOp (inv : LedgerInvoice) : LedgerInvoice :=
  { status := .cancelled
    total := 0
    receipts := inv.receipts.map (fun x => ⟨x.amount, 0⟩) }

/-- Modelled from the spec: the money-moving operations on one invoice's
ledger slice, each guarded by the state machine's legality conditions. -/
inductive LedgerStep : LedgerInvoice → LedgerInvoice → Prop
  | approve (inv : LedgerInvoice) :
      inv.status = .created → LedgerStep inv (approveOp inv)
  | payWithReceipt (inv : LedgerInvoice) (amt : Int) :
      inv.status = .approved → inv.total ≤ amt →
      LedgerStep inv (payOp amt inv)
  | cancelPartly (inv : LedgerInvoice) (newTotal : Int) :
      inv.status = .paid → LedgerStep inv (partialCancelOp newTotal inv)
  | cancelFully (inv : LedgerInvoice) :
      inv.status.isTerminal = false → LedgerStep inv (fullCancelOp inv)
  | credit (inv : LedgerInvoice) :
      inv.status = .paid → LedgerStep inv { inv with status := .credited }
  | refund (inv : LedgerInvoice) :
      inv.status = .paid → LedgerStep inv { inv with status := .refunded }
  | markOverdue (inv : LedgerInvoice) :
      inv.status = .paid → LedgerStep inv { inv with status := .overdue }

/-- The states an invoice can reach from a given one. -/
def LedgerReachable : LedgerInvoice → LedgerInvoice → Prop :=
  Relation.ReflTransGen LedgerStep

/-- The PAID coverage invariant: a paid invoice's applied receipts sum to
its total. -/
def paidCovered (inv : LedgerInvoice) : Prop :=
  inv.status = .paid → appliedSum inv = inv.total

/-- Every single ledger step preserves the PAID coverage invariant. -/
theorem ledgerStep_preserves_paidCovered {a b : LedgerInvoice}
    (hstep : LedgerStep a b) (hinv : paidCovered a) : paidCovered b := by
  cases hstep with
  | approve h => intro hp; simp [approveOp] at hp
  | payWithReceipt amt h hle =>
      intro _; simp [payOp, appliedSum]
  | cancelPartly newTotal h =>
      intro _
      unfold partialCancelOp
      cases hr : a.receipts with
      | nil => simpa [hr, h, appliedSum] using hinv h
      | cons r rs =>
          simp only [appliedSum, List.map_cons, List.sum_cons, List.map_map]
          have hz : ((rs.map fun x => (⟨x.amount, 0⟩ : AppliedReceipt)).map
              (fun r => r.applied)).sum = 0 := by
            apply List.sum_eq_zero
            intro x hx
            simp at hx
            obtain ⟨y, _, rfl⟩ := hx
            rfl
          simp [List.map_map] at hz ⊢
          omega
  | cancelFully h => intro hp; simp [fullCancelOp] at hp
  | credit h => intro hp; simp at hp
  | refund h => intro hp; simp at hp
  | markOverdue h => intro hp; simp at hp

/-- The scenario invoice: created with total 100, a receipt of 100
applied, PAID. -/
def scenarioPaid : LedgerInvoice :=
  payOp 100 (approveOp (newInvoice 100))

/-- The scenario invoice after unapply + adjust to 40 + re-apply 40. -/
def scenarioAdjusted : LedgerInvoice :=
  partialCancelOp 40 scenarioPaid

/-- Every invoice reachable from a freshly created one satisfies the PAID
coverage invariant. -/
theorem ledgerReachable_paidCovered (t : Int) (inv : LedgerInvoice)
    (hreach : LedgerReachable (newInvoice t) inv) : paidCovered inv := by
  induction hreach with
  | refl => intro hp; simp [newInvoice] at hp
  | tail _ hstep ih => exact ledgerStep_preserves_paidCovered hstep ih

/-- C4: every invoice reachable from a fresh invoice satisfies
sum(applied receipts) = total whenever its status is PAID; and the
scenario — total 100, receipt of 100 applied (PAID), then unapply + adjust
to 40 + re-apply 40 — ends PAID with total 40 and remaining receipt
balance 60. -/
theorem paid_receipts_cover_total (t : Int) (inv : LedgerInvoice)
    (hreach : LedgerReachable (newInvoice t) inv)
    (hpaid : inv.status = .paid) :
    appliedSum inv = inv.total ∧
    scenarioPaid.status = .paid ∧
    scenarioAdjusted.status = .paid ∧
    scenarioAdjusted.total = 40 ∧
    scenarioAdjusted.receipts = [⟨100, 40⟩] ∧
    remainingBalance ⟨100, 40⟩ = 60 :=
  ⟨ledgerReachable_paidCovered t inv hreach hpaid,
    by decide, by decide, by decide, by decide, by decide⟩

/-- C4 witness: the scenario's PAID invoice (total 100, one receipt of 100
applied) is reachable and covered. -/
theorem paid_receipts_cover_total_witness :
    appliedSum scenarioPaid = scenarioPaid.total ∧
    scenarioPaid.status = .paid ∧
    scenarioAdjusted.status = .paid ∧
    scenarioAdjusted.total = 40 ∧
    scenarioAdjusted.receipts = [⟨100, 40⟩] ∧
    remainingBalance ⟨100, 40⟩ = 60 :=
  paid_receipts_cover_total 100 scenarioPaid
    (Relation.ReflTransGen.tail
      (Relation.ReflTransGen.tail (Relation.ReflTransGen.refl)
        (LedgerStep.approve (newInvoice 100) rfl))
      (LedgerStep.payWithReceipt (approveOp (newInvoice 100)) 100 rfl
        (by decide)))
    rfl

/-! ## Routing slips: apply/unapply and the non-negative pool -/

/-- A routing slip: a cash/cheque pre-payment pool with its total, its
remaining amount and the applications it currently funds (invoice
reference, amount). -/
structure RoutingSlip where
  total : Int
  remaining : Int
  applications : List (String × Int)
  deriving DecidableEq, Repr

/-- A freshly created routing slip: nothing applied yet. -/
def initialSlip (t : Int) : RoutingSlip :=
  ⟨t, t, []⟩

/-- The operations a routing slip supports. -/
inductive RsOp where
  | applyFunds (invRef : String) (amt : Int)
  | unapplyFunds (invRef : String)
  deriving DecidableEq, Repr

/-- Remove the first application recorded for the given invoice
reference. -/
def removeRef : String → List (String × Int) → List (String × Int)
  | _, [] => []
  | ref, (k, v) :: rest =>
      if k = ref then rest else (k, v) :: removeRef ref rest

/-- Modelled from the spec: applying funds an invoice from the pool only
when the pool holds enough — an application that would overdraw the
remaining amount is rejected and changes nothing; unapplying returns the
recorded application's amount to the pool. -/
def rsStep (slip : RoutingSlip) : RsOp → RoutingSlip
  | .applyFunds ref amt =>
      if 0 < amt ∧ amt ≤ slip.remaining then
        { slip with
            remaining := slip.remaining - amt
            applications := (ref, amt) :: slip.applications }
      else slip
  | .unapplyFunds ref =>
      match lookupRef slip.applications ref with
      | some amt =>
          { slip with
              remaining := slip.remaining + amt
              applications := removeRef ref slip.applications }
      | none => slip

/-- Run a sequence of apply/unapply operations on a routing slip. -/
def runRsOps (slip : RoutingSlip) (ops : List RsOp) : RoutingSlip :=
  ops.foldl rsStep slip

/-- The routing-slip invariant: the pool is never negative and every
recorded application is positive. -/
def rsInvariant (slip : RoutingSlip) : Prop :=
  0 ≤ slip.remaining ∧ ∀ p ∈ slip.applications, 0 < p.2

/-- Looking a reference up in an association list finds one of its
entries. -/
theorem lookupRef_mem {β : Type} (l : List (String × β)) (key : String)
    (v : β) (h : lookupRef l key = some v) : (key, v) ∈ l := by
  induction l with
  | nil => simp [lookupRef] at h
  | cons p rest ih =>
      obtain ⟨k, w⟩ := p
      by_cases hk : k = key
      · subst hk
        simp [lookupRef] at h
        simp [h]
      · simp [lookupRef, hk] at h
        exact List.mem_cons_of_mem _ (ih h)

/-- Removing a reference keeps only entries that were already present. -/
theorem removeRef_subset (ref : String) (l : List (String × Int))
    (p : String × Int) (h : p ∈ removeRef ref l) : p ∈ l := by
  induction l with
  | nil => simp [removeRef] at h
  | cons q rest ih =>
      obtain ⟨k, w⟩ := q
      by_cases hk : k = ref
      · subst hk
        simp [removeRef] at h
        simp [h]
      · simp [removeRef, hk] at h
        rcases h with h | h
        · simp [h]
        · exact List.mem_cons_of_mem _ (ih h)

/-- One routing-slip operation preserves the invariant. -/
theorem rsStep_preserves (slip : RoutingSlip) (op : RsOp)
    (hinv : rsInvariant slip) : rsInvariant (rsStep slip op) := by
  obtain ⟨hrem, happ⟩ := hinv
  cases op with
  | applyFunds ref amt =>
      by_cases hc : 0 < amt ∧ amt ≤ slip.remaining
      · refine ⟨by simp only [rsStep, if_pos hc]; omega, ?_⟩
        intro p hp
        simp [rsStep, hc] at hp
        rcases hp with hp | hp
        · simp [hp]; exact hc.1
        · exact happ p hp
      · simpa [rsStep, hc] using ⟨hrem, happ⟩
  | unapplyFunds ref =>
      cases hl : lookupRef slip.applications ref with
      | none => simpa [rsStep, hl] using ⟨hrem, happ⟩
      | some amt =>
          have hpos : 0 < amt := happ (ref, amt) (lookupRef_mem _ _ _ hl)
          refine ⟨by simp only [rsStep, hl]; omega, ?_⟩
          intro p hp
          simp [rsStep, hl] at hp
          exact happ p (removeRef_subset ref _ p hp)

/-- Any sequence of operations preserves the invariant. -/
theorem runRsOps_preserves (ops : List RsOp) (slip : RoutingSlip)
    (hinv : rsInvariant slip) : rsInvariant (runRsOps slip ops) := by
  induction ops generalizing slip with
  | nil => simpa [runRsOps] using hinv
  | cons op rest ih =>
      have h1 : rsInvariant (rsStep slip op) := rsStep_preserves slip op hinv
      simpa [runRsOps, List.foldl_cons] using ih (rsStep slip op) h1

/-- C5: starting from a freshly created routing slip with a non-negative
total, the remaining amount is non-negative after every prefix of any
apply/unapply sequence. -/
theorem routingSlip_remaining_nonneg (t : Int) (ops : List RsOp) (k : Nat)
    (ht : 0 ≤ t) :
    0 ≤ (runRsOps (initialSlip t) (ops.take k)).remaining := by
  have hinit : rsInvariant (initialSlip t) := by
    constructor
    · simpa [initialSlip] using ht
    · intro p hp; simp [initialSlip] at hp
  exact (runRsOps_preserves (ops.take k) (initialSlip t) hinit).1

/-- The operation sequence used as the routing-slip witness: apply 60,
apply 50 (overdraws, rejected), unapply, apply 100, apply 40. -/
def rsWitnessOps : List RsOp :=
  [.applyFunds "I1" 60, .applyFunds "I2" 50, .unapplyFunds "I1",
   .applyFunds "I3" 100, .applyFunds "I4" 40]

/-- C5 witness: a slip of 100 stays non-negative through every prefix of
the witness sequence. -/
theorem routingSlip_remaining_nonneg_witness :
    0 ≤ (100 : Int) ∧
    0 ≤ (runRsOps (initialSlip 100) (rsWitnessOps.take 5)).remaining :=
  ⟨by decide, routingSlip_remaining_nonneg 100 rsWitnessOps 5 (by decide)⟩

/-! ## Connector adapters: retry with exponential backoff -/

/-- What one outbound connector call comes back with: an acknowledgement,
a transient failure (timeout, 5xx) or a permanent failure (4xx
validation). -/
inductive ConnectorResponse where
  | acked (ackId : Nat)
  | transientFailure
  | permanentFailure
  deriving DecidableEq, Repr

/-- The overall outcome of a submit, with the number of attempts made:
delivered, parked for manual review after the retry cap, or rejected by a
permanent error. -/
inductive CallOutcome where
  | delivered (ackId : Nat) (attempts : Nat)
  | parkedForReview (attempts : Nat)
  | rejected (attempts : Nat)
  deriving DecidableEq, Repr

/-- An explicit retry policy: the attempt cap and the base backoff
delay. -/
structure RetryPolicy where
  maxAttempts : Nat
  baseDelayMs : Nat
  deriving DecidableEq, Repr

/-- Modelled from the spec: exponential backoff — the delay before retry
number i doubles each time. -/
def backoffDelay (p : RetryPolicy) (retryIdx : Nat) : Nat :=
  p.baseDelayMs * 2 ^ retryIdx

/-- The retry loop: `fuel` attempts remain, `attempt` have been made.
A transient failure is retried while fuel remains, then the call is parked
for manual review; a permanent failure is surfaced at once; an
acknowledgement completes the call. -/
def retryFrom (responses : Nat → ConnectorResponse) : Nat → Nat → CallOutcome
  | 0, attempt => .parkedForReview attempt
  | fuel + 1, attempt =>
      match responses attempt with
      | .acked a => .delivered a (attempt + 1)
      | .permanentFailure => .rejected (attempt + 1)
      | .transientFailure => retryFrom responses fuel (attempt + 1)

/-- Modelled from the spec: submit a connector call under a retry
policy. -/
def submitWithRetry (p : RetryPolicy) (responses : Nat → ConnectorResponse) :
    CallOutcome :=
  retryFrom responses p.maxAttempts 0

/-- Submit the connector call backing an invoice event: the event is
committed only on delivery, so a failed call leaves the invoice in its
pre-transition state. -/
def submitAndApply (p : RetryPolicy) (responses : Nat → ConnectorResponse)
    (inv : Invoice) (ev : InvoiceEvent) : CallOutcome × Invoice :=
  match submitWithRetry p responses with
  | .delivered a n =>
      (.delivered a n,
        match transition inv ev with
        | .ok inv2 => inv2
        | .error _ => inv)
  | .parkedForReview n => (.parkedForReview n, inv)
  | .rejected n => (.rejected n, inv)

/-- When every response is transient the loop burns all its fuel and
parks, having made one attempt per unit of fuel. -/
theorem retryFrom_all_transient (responses : Nat → ConnectorResponse)
    (h : ∀ i, responses i = .transientFailure) (fuel attempt : Nat) :
    retryFrom responses fuel attempt = .parkedForReview (attempt + fuel) := by
  induction fuel generalizing attempt with
  | zero => simp [retryFrom]
  | succ n ih =>
      have := ih (attempt + 1)
      simp [retryFrom, h attempt, this]
      omega

/-- C7: under any policy admitting at least one attempt, a permanent (4xx)
response on the first call is surfaced immediately after exactly one
attempt — zero retries — and the originating invoice keeps its
pre-transition state; all-transient responses (timeouts, 5xx) are retried
up to the attempt cap and then parked for manual review; and the backoff
delay between retries grows exponentially, doubling each retry. -/
theorem connector_retry_policy (p : RetryPolicy)
    (responses : Nat → ConnectorResponse) (inv : Invoice)
    (ev : InvoiceEvent) (hcap : 1 ≤ p.maxAttempts) :
    (responses 0 = .permanentFailure →
      submitWithRetry p responses = .rejected 1 ∧
      (submitAndApply p responses inv ev).2 = inv) ∧
    ((∀ i, responses i = .transientFailure) →
      submitWithRetry p responses = .parkedForReview p.maxAttempts) ∧
    (∀ i, backoffDelay p (i + 1) = 2 * backoffDelay p i) := by
  refine ⟨?_, ?_, ?_⟩
  · intro h0
    cases hm : p.maxAttempts with
    | zero => omega
    | succ m =>
        have hs : submitWithRetry p responses = .rejected 1 := by
          simp [submitWithRetry, hm, retryFrom, h0]
        exact ⟨hs, by simp [submitAndApply, hs]⟩
  · intro hall
    simpa [submitWithRetry] using
      retryFrom_all_transient responses hall p.maxAttempts 0
  · intro i
    simp [backoffDelay, pow_succ]
    ring

/-- A connector that answers every call with a permanent (4xx)
failure. -/
def alwaysPermanent : Nat → ConnectorResponse :=
  fun _ => .permanentFailure

/-- C7 witness: a policy of three attempts over an all-permanent
connector rejects after one attempt without touching the invoice, and the
backoff doubles. -/
theorem connector_retry_policy_witness :
    1 ≤ (RetryPolicy.mk 3 100).maxAttempts ∧
    ((alwaysPermanent 0 = ConnectorResponse.permanentFailure →
      submitWithRetry (RetryPolicy.mk 3 100) alwaysPermanent = .rejected 1 ∧
      (submitAndApply (RetryPolicy.mk 3 100) alwaysPermanent
          (Invoice.mk .approved 50) .pay).2 = Invoice.mk .approved 50) ∧
    ((∀ i, alwaysPermanent i = ConnectorResponse.transientFailure) →
      submitWithRetry (RetryPolicy.mk 3 100) alwaysPermanent =
        .parkedForReview (RetryPolicy.mk 3 100).maxAttempts) ∧
    (∀ i, backoffDelay (RetryPolicy.mk 3 100) (i + 1) =
      2 * backoffDelay (RetryPolicy.mk 3 100) i)) :=
  ⟨by decide,
    connector_retry_policy (RetryPolicy.mk 3 100) alwaysPermanent
      (Invoice.mk .approved 50) .pay (by decide)⟩

/-! ## Payment-method enums of the public request schemas

From `pay-api/src/pay_api/schemas/schemas/payment.json` (property
`paymentMethod`) and `payment_info.json` (property `methodOfPayment`),
transcribed verbatim. -/

/-- The `paymentMethod` enum of payment.json. -/
def paymentMethodEnum : List String :=
  ["EFT", "WIRE", "REFUND", "DRAWDOWN", "CASH", "CHEQUE"]

/-- The `methodOfPayment` enum of payment_info.json. -/
def methodOfPaymentEnum : List String :=
  ["CC", "DRAWDOWN", "DIRECT_PAY", "ONLINE_BANKING", "PAD", "EFT", "WIRE", "EJV"]

/-- Schema validation of payment.json's paymentMethod: the value must be
one of the enum's members. -/
def paymentMethodValid (m : String) : Bool :=
  m ∈ paymentMethodEnum

/-- Schema validation of payment_info.json's methodOfPayment. -/
def methodOfPaymentValid (m : String) : Bool :=
  m ∈ methodOfPaymentEnum

/-- The spec's claimed payment-method set, written from the spec's words
for comparison with the schemas. -/
def claimedPaymentMethods : List String :=
  ["PAD", "BCOL", "CC", "EFT", "EJV", "CASH", "CHEQUE", "WIRE"]

/-- C8 counterexample: the claim's eight-element set is not the set of
methods the public schemas accept — payment.json accepts REFUND, which is
outside the claimed set, and the claimed BCOL is accepted by neither
schema (BCOL drawdown appears as DRAWDOWN), so dispatch over exactly those
eight variants does not match the public interface. -/
theorem paymentMethods_not_claimed_set :
    paymentMethodValid "REFUND" = true ∧
    "REFUND" ∉ claimedPaymentMethods ∧
    "BCOL" ∈ claimedPaymentMethods ∧
    paymentMethodValid "BCOL" = false ∧
    methodOfPaymentValid "BCOL" = false ∧
    methodOfPaymentValid "DIRECT_PAY" = true ∧
    "DIRECT_PAY" ∉ claimedPaymentMethods := by
  decide

/-- C8 (amended): the payment methods accepted at the public interface
are exactly the two schema enums — payment.json accepts {EFT, WIRE,
REFUND, DRAWDOWN, CASH, CHEQUE} and payment_info.json accepts {CC,
DRAWDOWN, DIRECT_PAY, ONLINE_BANKING, PAD, EFT, WIRE, EJV}; BCOL drawdown
is carried as DRAWDOWN, not as a BCOL literal, and the union of the two
enums, {EFT, WIRE, REFUND, DRAWDOWN, CASH, CHEQUE, CC, DIRECT_PAY,
ONLINE_BANKING, PAD, EJV}, differs from the claimed eight-element set. -/
theorem paymentMethods_are_schema_enums :
    paymentMethodEnum =
      ["EFT", "WIRE", "REFUND", "DRAWDOWN", "CASH", "CHEQUE"] ∧
    methodOfPaymentEnum =
      ["CC", "DRAWDOWN", "DIRECT_PAY", "ONLINE_BANKING", "PAD", "EFT",
       "WIRE", "EJV"] ∧
    (paymentMethodEnum ++ methodOfPaymentEnum).dedup.toFinset =
      (["EFT", "WIRE", "REFUND", "DRAWDOWN", "CASH", "CHEQUE", "CC",
        "DIRECT_PAY", "ONLINE_BANKING", "PAD", "EJV"] : List String).toFinset ∧
    "DRAWDOWN" ∈ paymentMethodEnum ∧
    "DRAWDOWN" ∈ methodOfPaymentEnum ∧
    "BCOL" ∉ paymentMethodEnum ++ methodOfPaymentEnum ∧
    (paymentMethodEnum ++ methodOfPaymentEnum).dedup.toFinset ≠
      claimedPaymentMethods.toFinset := by
  refine ⟨rfl, rfl, by decide, by decide, by decide, by decide, ?_⟩
  intro h
  have : "REFUND" ∈ claimedPaymentMethods.toFinset := by
    rw [← h]; decide
  simp [claimedPaymentMethods] at this

/-! ## BCOL fee codes (BCOL_NOTES: service fees)

The BCOL notes: SBC-PAY calculates the service fee amount and the
bcol_service determines which BCOL fee code to use, passing the code — and
not the amount — to the BCOL web service. $1.50 or $1.05 →
bcol_code_full_service_fee, $1 → bcol_code_partial_service_fee, $0 →
bcol_code_no_service_fee. -/

/-- The three BCOL fee-code families of the notes. -/
inductive BcolFeeLevel where
  | fullServiceFee
  | partialServiceFee
  | noServiceFee
  deriving DecidableEq, Repr

/-- Modelled from the spec: the fee-code family as a function of the
computed service-fee amount, in cents. -/
def bcolFeeLevel : Nat → Option BcolFeeLevel
  | 150 => some .fullServiceFee
  | 105 => some .fullServiceFee
  | 100 => some .partialServiceFee
  | 0 => some .noServiceFee
  | _ => none

/-- The BCOL fee codes configured for a corp type:
bcol_code_full_service_fee, bcol_code_partial_service_fee,
bcol_code_no_service_fee. -/
structure BcolFeeCodes where
  fullCode : String
  partialCode : String
  noCode : String
  deriving DecidableEq, Repr

/-- Select the configured code of the determined family. -/
def selectFeeCode (codes : BcolFeeCodes) : BcolFeeLevel → String
  | .fullServiceFee => codes.fullCode
  | .partialServiceFee => codes.partialCode
  | .noServiceFee => codes.noCode

/-- The payload sent to the BCOL web service for a charge: the account key
and the fee code — no service-fee amount field. -/
structure BcolChargeRequest where
  accountKey : String
  feeCode : String
  deriving DecidableEq, Repr

/-- Modelled from the spec: build the BCOL web-service request — the
service fee enters only through the selected fee code. -/
def mkBcolChargeRequest (codes : BcolFeeCodes) (key : String)
    (serviceFeeCents : Nat) : Option BcolChargeRequest :=
  (bcolFeeLevel serviceFeeCents).map fun lvl => ⟨key, selectFeeCode codes lvl⟩

/-- C9: the BCOL fee code is a pure function of the computed service-fee
amount — 1.50 and 1.05 select bcol_code_full_service_fee, 1.00 selects
bcol_code_partial_service_fee, 0 selects bcol_code_no_service_fee — and
the amount itself is never transmitted: two service fees with the same fee
code produce identical requests, so the request carries no information
about the amount beyond the code. -/
theorem bcol_fee_code_pure_of_amount (codes : BcolFeeCodes) (key : String)
    (f g : Nat) :
    (bcolFeeLevel 150 = some .fullServiceFee ∧
     bcolFeeLevel 105 = some .fullServiceFee ∧
     bcolFeeLevel 100 = some .partialServiceFee ∧
     bcolFeeLevel 0 = some .noServiceFee) ∧
    (∀ lvl, bcolFeeLevel f = some lvl →
      mkBcolChargeRequest codes key f = some ⟨key, selectFeeCode codes lvl⟩) ∧
    (bcolFeeLevel f = bcolFeeLevel g →
      mkBcolChargeRequest codes key f = mkBcolChargeRequest codes key g) := by
  refine ⟨⟨rfl, rfl, rfl, rfl⟩, ?_, ?_⟩
  · intro lvl h
    simp [mkBcolChargeRequest, h]
  · intro h
    simp [mkBcolChargeRequest, h]

/-! ## NSF on a routing-slip cheque (CFS integration notes: nsf)

The notes: when a cheque bounces, call `/rcpts/reverse` — reverse the
receipt, which unapplies all invoices — then `/invs` to create a new
invoice for the NSF fees. -/

/-- A routing slip's CFS receipt: face amount, the applications it funds
(invoice reference, amount) and whether it has been reversed. -/
structure RsReceipt where
  amount : Int
  applications : List (String × Int)
  reversed : Bool
  deriving DecidableEq, Repr

/-- The CFS ledger slice an NSF touches: the routing slip's receipt and
the invoices on the site (reference, amount). -/
structure CfsRsLedger where
  receipt : RsReceipt
  invoices : List (String × Int)
  deriving DecidableEq, Repr

/-- The amount this receipt has applied to the given invoice. -/
def appliedToInvoice (r : RsReceipt) (invRef : String) : Int :=
  ((r.applications.filter (fun p => p.1 == invRef)).map (fun p => p.2)).sum

/-- Modelled from the spec: the NSF handler reverses the routing slip's
receipt in CFS — unapplying every invoice it funded — and then creates a
new invoice for the NSF fee. -/
def nsfHandler (st : CfsRsLedger) (nsfFeeAmount : Int) (newInvRef : String) :
    CfsRsLedger :=
  { receipt := { st.receipt with applications := [], reversed := true }
    invoices := st.invoices ++ [(newInvRef, nsfFeeAmount)] }

/-- C10: after the NSF handler runs, the routing slip's receipt is
reversed and applies nothing to any invoice — no invoice retains an
applied amount from it — and the invoice list gains exactly one new
invoice carrying the NSF fee. -/
theorem nsfHandler_reverses_and_bills (st : CfsRsLedger)
    (nsfFeeAmount : Int) (newInvRef : String) :
    (nsfHandler st nsfFeeAmount newInvRef).receipt.reversed = true ∧
    (∀ invRef,
      appliedToInvoice (nsfHandler st nsfFeeAmount newInvRef).receipt invRef = 0) ∧
    (nsfHandler st nsfFeeAmount newInvRef).invoices =
      st.invoices ++ [(newInvRef, nsfFeeAmount)] := by
  refine ⟨rfl, ?_, rfl⟩
  intro invRef
  simp [nsfHandler, appliedToInvoice]

end SbcPay
